import Mathlib

/-
Verification of the `dias_uteis` business-day calendar library.

The repository ships two parallel implementations of the same engine:
  * `dias_uteis.py`            (flat module: symmetric ±4n offset window,
                                backward/forward walking in next_bd/last_bd,
                                the inclusive `diff`),
  * `dias_uteis/business_days.py` (package: one-sided 2n offset window,
                                no walking in next_bd/last_bd).
Both are embedded below; definitions carry the source names, with the
package variants suffixed `_pkg`.

Dates are embedded as their proleptic Gregorian ordinals (`Int`), exactly
the value that CPython `datetime.date.toordinal()` computes (0001-01-01 = 1);
`mkDate` mirrors `datetime._ymd2ord`, `weekday` mirrors `date.weekday()`
(Monday = 0), and `yearOf` is an executable model of `date.year`
characterized by `jan1_yearOf_le`/`lt_jan1_yearOf` below.  Python `//` and
`%` are `Int.fdiv` / `Int.fmod` (floor semantics).  Date arithmetic is
modeled on unbounded integers.
-/

namespace DiasUteis

/-- Leap-year rule of `datetime`. -/
def isLeap (y : Int) : Bool :=
  (y.fmod 4 == 0 && y.fmod 100 != 0) || y.fmod 400 == 0

/-- Table `datetime._DAYS_IN_MONTH` (non-leap February). -/
def daysInMonthTable : Int → Int
  | 1 => 31 | 2 => 28 | 3 => 31 | 4 => 30 | 5 => 31 | 6 => 30
  | 7 => 31 | 8 => 31 | 9 => 30 | 10 => 31 | 11 => 30 | 12 => 31
  | _ => 0

/-- Model of `datetime._days_in_month`. -/
def daysInMonth (y m : Int) : Int :=
  if m == 2 && isLeap y then 29 else daysInMonthTable m

/-- Table `datetime._DAYS_BEFORE_MONTH` (cumulative month lengths, non-leap). -/
def daysBeforeMonthTable : Int → Int
  | 1 => 0 | 2 => 31 | 3 => 59 | 4 => 90 | 5 => 120 | 6 => 151
  | 7 => 181 | 8 => 212 | 9 => 243 | 10 => 273 | 11 => 304 | 12 => 334
  | _ => 0

/-- Model of `datetime._days_before_month`. -/
def daysBeforeMonth (y m : Int) : Int :=
  daysBeforeMonthTable m + (if 2 < m && isLeap y then 1 else 0)

/-- Model of `datetime._days_before_year`. -/
def daysBeforeYear (y : Int) : Int :=
  365 * (y - 1) + (y - 1).fdiv 4 - (y - 1).fdiv 100 + (y - 1).fdiv 400

/-- Model of `datetime.date(y, m, d).toordinal()`, that is `datetime._ymd2ord`. -/
def mkDate (y m d : Int) : Int :=
  daysBeforeYear y + daysBeforeMonth y m + d

/-- Ordinal of January 1 of year `y`. -/
def jan1 (y : Int) : Int := mkDate y 1 1

/-- Number of days of year `y`. -/
def daysInYear (y : Int) : Int := if isLeap y then 366 else 365

/-- Model of `date.weekday()`: Monday = 0 .. Sunday = 6 (0001-01-01 is a Monday). -/
def weekday (d : Int) : Int := (d + 6).fmod 7

/-- Model of `date.year`: the year an ordinal falls in.  Executable model: a linear
candidate from the 400-year cycle length 146097, corrected by at most two
years; `yearOf_spec` below proves the characterizing property of
`date.year`. -/
def yearOf (z : Int) : Int :=
  let y := (400 * z).fdiv 146097 + 1
  if jan1 (y + 2) ≤ z then y + 2
  else if jan1 (y + 1) ≤ z then y + 1
  else if jan1 y ≤ z then y
  else if jan1 (y - 1) ≤ z then y - 1
  else y - 2

/-- Check `datetime.MINYEAR ≤ y ≤ datetime.MAXYEAR` (the validation done by
`datetime.date(year, 1, 1)`). -/
def validYear (y : Int) : Bool := decide (1 ≤ y) && decide (y ≤ 9999)

/-- Argument validation performed by the `datetime.date` constructor. -/
def validDate (y m d : Int) : Bool :=
  validYear y && decide (1 ≤ m) && decide (m ≤ 12) &&
    decide (1 ≤ d) && decide (d ≤ daysInMonth y m)

/-- Python exception classes raised by the code under verification. -/
inductive PyErr
  | valueError
  | typeError
  | indexError
  | overflowError
deriving DecidableEq, Repr

/-- Constructor `datetime.date(y, m, d)`: validates, then denotes the ordinal. -/
def pyDate (y m d : Int) : Except PyErr Int :=
  if validDate y m d then .ok (mkDate y m d) else .error .valueError

/-- Holiday type tag (`Holiday._type`). -/
inductive HolidayType
  | fixed
  | dynamic
deriving DecidableEq, Repr

/-- The `Holiday` object after construction: fields `month`, `day`, `func`
and `_type` exactly as `Holiday.__init__` stores them.  Dynamic rules keep
their year-to-date function (year-to-ordinal here). -/
structure Holiday where
  month : Option Int
  day : Option Int
  func : Option (Int → Int)
  htype : HolidayType

/-- Constructor `Holiday.__init__`.  `todayYear` is `datetime.date.today().year`, used
only to validate the month/day pair of a fixed rule.  The `isinstance` checks on
`month`/`day`/`func` and the `callable(func)` check are type-level in this
embedding (an `Option (Int → Int)` is always invocable when present). -/
def mkHoliday (todayYear : Int) (month day : Option Int)
    (func : Option (Int → Int)) : Except PyErr Holiday :=
  if month.isSome && day.isSome then
    match pyDate todayYear (month.getD 0) (day.getD 0) with
    | .error e => .error e
    | .ok _ => .ok ⟨month, day, func, .fixed⟩
  else
    match func with
    | none => .error .valueError
    | some _ => .ok ⟨month, day, func, .dynamic⟩

/-- Method `Holiday.calc_for_year`: validates the year via `datetime.date(year, 1, 1)`,
then resolves the rule.  (The `isinstance(func_response, datetime.date)`
check is type-level here.) -/
def Holiday.calc_for_year (h : Holiday) (year : Int) : Except PyErr Int :=
  match pyDate year 1 1 with
  | .error e => .error e
  | .ok _ =>
    match h.htype with
    | .fixed => pyDate year (h.month.getD 0) (h.day.getD 0)
    | .dynamic => .ok ((h.func.getD fun _ => 0) year)

/-- Total core of `Holiday.calc_for_year`, used on the calendar paths (it
agrees with `calc_for_year` whenever the latter does not raise; see
`calc_for_year_resolve`). -/
def Holiday.resolve (h : Holiday) (year : Int) : Int :=
  match h.htype with
  | .fixed => mkDate year (h.month.getD 0) (h.day.getD 0)
  | .dynamic => (h.func.getD fun _ => 0) year

/-- Helper `_get_year_holidays`. -/
def get_year_holidays (year : Int) (holidays : List Holiday) : List Int :=
  holidays.map (fun h => h.resolve year)

/-- The dates of year `y` in ascending order: models the
`while date <= last_date_of_year: ... date += timedelta(days=1)` loop of
`_get_year_business_days`, which enumerates the consecutive ordinals from
January 1 to December 31. -/
def yearDates (year : Int) : List Int :=
  (List.range (daysInYear year).toNat).map (fun i : Nat => jan1 year + (i : Int))

/-- Helper `_get_year_business_days`. -/
def get_year_business_days (year : Int) (holidays : List Holiday) : List Int :=
  let yhs := if holidays.isEmpty then [] else get_year_holidays year holidays
  (yearDates year).filter (fun d => decide (weekday d < 5) && !(yhs.contains d))

/-- Ascending `list(range(a, b + 1))`, empty when `b < a`. -/
def intRange (a b : Int) : List Int :=
  (List.range (b + 1 - a).toNat).map (fun i : Nat => a + (i : Int))

/-- Helper `_get_years_between_two_dates`: both branches produce, after the final
`sorted`, the ascending run of years from the smaller to the larger
endpoint year. -/
def get_years_between_two_dates (start_date end_date : Int) : List Int :=
  if end_date > start_date then intRange (yearOf start_date) (yearOf end_date)
  else intRange (yearOf end_date) (yearOf start_date)

/-- Method `BusinessDays._get_all_bdays_for_years`. -/
def get_all_bdays_for_years (years : List Int) (holidays : List Holiday) : List Int :=
  years.foldl (fun acc y => acc ++ get_year_business_days y holidays) []

/-- Method `BusinessDays.is_bd`.  A `BusinessDays` object is represented by its
holiday list; `None` and `[]` (both falsy in every use site) are the empty
list. -/
def is_bd (holidays : List Holiday) (date : Int) : Bool :=
  (get_year_business_days (yearOf date) holidays).contains date

/-- Method `BusinessDays.is_holiday`. -/
def is_holiday (holidays : List Holiday) (date : Int) : Bool :=
  (get_year_holidays (yearOf date) (if holidays.isEmpty then [] else holidays)).contains date

/-- Python list subscription `l[i]`: negative indices wrap around once;
anything further out raises `IndexError`. -/
def pyGet (l : List Int) (i : Int) : Except PyErr Int :=
  if 0 ≤ i then
    match l[i.toNat]? with
    | some x => .ok x
    | none => .error .indexError
  else if 0 ≤ (l.length : Int) + i then
    match l[((l.length : Int) + i).toNat]? with
    | some x => .ok x
    | none => .error .indexError
  else .error .indexError

/-- Python `list.index(x)`: position of the first occurrence, `ValueError` if absent. -/
def pyIndex (l : List Int) (x : Int) : Except PyErr Nat :=
  match l.findIdx? (fun a => a == x) with
  | some n => .ok n
  | none => .error .valueError

/-- Method `BusinessDays.delta_bd` of `dias_uteis.py` (symmetric ±4·delta window). -/
def delta_bd (holidays : List Holiday) (date delta_days : Int) : Except PyErr Int :=
  if !(is_bd holidays date) then .error .valueError
  else
    let start_calendar_date := date + (-delta_days * 4)
    let end_calendar_date := date + delta_days * 4
    let years := get_years_between_two_dates start_calendar_date end_calendar_date
    let all_bdays := get_all_bdays_for_years years holidays
    match pyIndex all_bdays date with
    | .error e => .error e
    | .ok date_position => pyGet all_bdays ((date_position : Int) + delta_days)

/-- Method `BusinessDays.delta_bd` of `dias_uteis/business_days.py` (one-sided
2·delta window). -/
def delta_bd_pkg (holidays : List Holiday) (date delta_days : Int) : Except PyErr Int :=
  if !(is_bd holidays date) then .error .valueError
  else
    let end_calendar_date := date + delta_days * 2
    let years := get_years_between_two_dates date end_calendar_date
    let all_bdays := get_all_bdays_for_years years holidays
    match pyIndex all_bdays date with
    | .error e => .error e
    | .ok date_position => pyGet all_bdays ((date_position : Int) + delta_days)

/-- Method `BusinessDays._find_bd` of `dias_uteis.py`: walk one calendar day at a
time in `direction` until hitting a business day.  `fuel` bounds the
unbounded `while` loop of the source; `none` means the bound was hit. -/
def find_bd (holidays : List Holiday) (fuel : Nat) (start_date direction : Int) :
    Option Int :=
  match fuel with
  | 0 => none
  | fuel + 1 =>
    if is_bd holidays start_date then some start_date
    else find_bd holidays fuel (start_date + direction) direction

/-- Method `BusinessDays.next_bd` of `dias_uteis.py`: anchor on `date` itself when
it is a business day, otherwise walk backward to the previous business day,
then offset by +1. -/
def next_bd (holidays : List Holiday) (fuel : Nat) (date : Int) : Except PyErr Int :=
  match (if !(is_bd holidays date) then find_bd holidays fuel date (-1) else some date) with
  | none => .error .overflowError
  | some anchor => delta_bd holidays anchor 1

/-- Method `BusinessDays.next_bd` of `dias_uteis/business_days.py`: no walking
(the `_find_bd` helper is commented out in that file) — it directly calls
`delta_bd(date, 1)`, whose precondition check raises on non-business days. -/
def next_bd_pkg (holidays : List Holiday) (date : Int) : Except PyErr Int :=
  delta_bd_pkg holidays date 1

/-- Method `BusinessDays.range_bd` (identical in both variants). -/
def range_bd (holidays : List Holiday) (start_date end_date : Int)
    (include_end : Bool) : List Int :=
  let years := get_years_between_two_dates start_date end_date
  let all_bdays := get_all_bdays_for_years years holidays
  if include_end then
    all_bdays.filter (fun bday => decide (start_date ≤ bday) && decide (bday ≤ end_date))
  else
    all_bdays.filter (fun bday => decide (start_date ≤ bday) && decide (bday < end_date))

/-- Method `BusinessDays.year_bds`. -/
def year_bds (holidays : List Holiday) (year : Int) : List Int :=
  range_bd holidays (mkDate year 1 1) (mkDate year 12 31) true

/-- Method `BusinessDays.year_holidays`. -/
def year_holidays (holidays : List Holiday) (year : Int) : List Int :=
  if !holidays.isEmpty then get_year_holidays year holidays else []

/-- Method `BusinessDays.diff` of `dias_uteis.py` (the inclusive variant). -/
def diff (holidays : List Holiday) (a b : Int) : Int :=
  let years := intRange (min (yearOf a) (yearOf b)) (max (yearOf a) (yearOf b))
  let all_bdays := get_all_bdays_for_years years holidays
  let mn := min a b
  let mx := max a b
  let bdays := all_bdays.filter (fun d => decide (mn ≤ d) && decide (d ≤ mx))
  ((bdays.length : Int) - 1) * (if b > a then 1 else -1)

/-- Easter function `_calc_pascoa`, the Meeus/Jones/Butcher algorithm (the
computed month/day pair always forms a valid date, so the
`datetime.date(year, month, day)` at the end is `mkDate`). -/
def calc_pascoa (year : Int) : Int :=
  let a := year.fmod 19
  let b := year.fdiv 100
  let c := year.fmod 100
  let d := b.fdiv 4
  let e := b.fmod 4
  let f := (b + 8).fdiv 25
  let g := (b - f + 1).fdiv 3
  let h := (19 * a + b - d - g + 15).fmod 30
  let i := c.fdiv 4
  let k := c.fmod 4
  let l := (32 + 2 * e + 2 * i - h - k).fmod 7
  let m := (a + 11 * h + 22 * l).fdiv 451
  let month := (h + l - 7 * m + 114).fdiv 31
  let day := (h + l - 7 * m + 114).fmod 31 + 1
  mkDate year month day

/-- Helper `_delta_pascoa` (with the application of the delta already
performed, as in `_calc_segunda_feira_carnaval` and friends). -/
def delta_pascoa (delta : Int) (year : Int) : Int :=
  calc_pascoa year + delta

/-- Value `Holiday(month=m, day=d)` as stored by a successful construction. -/
def fixedHoliday (m d : Int) : Holiday := ⟨some m, some d, none, .fixed⟩

/-- Value `Holiday(func=f)` as stored by a successful construction. -/
def dynamicHoliday (f : Int → Int) : Holiday := ⟨none, none, some f, .dynamic⟩

/-- Table `FERIADOS_NACIONAIS_BR` (13 entries, as in `dias_uteis.py` and
`dias_uteis/__init__.py`). -/
def FERIADOS_NACIONAIS_BR : List Holiday :=
  [ fixedHoliday 1 1,
    dynamicHoliday (delta_pascoa (-48)),
    dynamicHoliday (delta_pascoa (-47)),
    dynamicHoliday (delta_pascoa (-2)),
    fixedHoliday 4 21,
    fixedHoliday 5 1,
    dynamicHoliday (delta_pascoa 60),
    fixedHoliday 9 7,
    fixedHoliday 10 12,
    fixedHoliday 11 2,
    fixedHoliday 11 15,
    fixedHoliday 11 20,
    fixedHoliday 12 25 ]

end DiasUteis

set_option maxRecDepth 10000

namespace DiasUteis

theorem fdiv_four (a : Int) : a.fdiv 4 = a / 4 := Int.fdiv_eq_ediv a (by decide)

theorem fdiv_hundred (a : Int) : a.fdiv 100 = a / 100 := Int.fdiv_eq_ediv a (by decide)

theorem fdiv_fourhundred (a : Int) : a.fdiv 400 = a / 400 := Int.fdiv_eq_ediv a (by decide)

theorem fdiv_cycle (a : Int) : a.fdiv 146097 = a / 146097 := Int.fdiv_eq_ediv a (by decide)

theorem fmod_four (a : Int) : a.fmod 4 = a % 4 := Int.fmod_eq_emod a (by decide)

theorem fmod_hundred (a : Int) : a.fmod 100 = a % 100 := Int.fmod_eq_emod a (by decide)

theorem fmod_fourhundred (a : Int) : a.fmod 400 = a % 400 := Int.fmod_eq_emod a (by decide)

theorem fmod_seven (a : Int) : a.fmod 7 = a % 7 := Int.fmod_eq_emod a (by decide)

theorem isLeap_iff (y : Int) :
    isLeap y = true ↔ ((y % 4 = 0 ∧ ¬ y % 100 = 0) ∨ y % 400 = 0) := by
  unfold isLeap
  rw [fmod_four, fmod_hundred, fmod_fourhundred]
  simp [Bool.or_eq_true, Bool.and_eq_true, beq_iff_eq, bne_iff_ne]

theorem daysInYear_eq (y : Int) :
    daysInYear y = if ((y % 4 = 0 ∧ ¬ y % 100 = 0) ∨ y % 400 = 0) then 366 else 365 := by
  unfold daysInYear
  by_cases h : isLeap y = true
  · rw [if_pos h, if_pos ((isLeap_iff y).mp h)]
  · rw [if_neg h, if_neg (fun hc => h ((isLeap_iff y).mpr hc))]

theorem daysInYear_bounds (y : Int) : 365 ≤ daysInYear y ∧ daysInYear y ≤ 366 := by
  rw [daysInYear_eq]; split <;> omega

theorem daysBeforeYear_succ (y : Int) :
    daysBeforeYear (y + 1) = daysBeforeYear y + daysInYear y := by
  unfold daysBeforeYear
  rw [daysInYear_eq, fdiv_four, fdiv_four, fdiv_hundred, fdiv_hundred,
    fdiv_fourhundred, fdiv_fourhundred]
  split <;> omega

theorem jan1_eq (y : Int) : jan1 y = daysBeforeYear y + 1 := by
  simp [jan1, mkDate, daysBeforeMonth, daysBeforeMonthTable]

theorem jan1_succ (y : Int) : jan1 (y + 1) = jan1 y + daysInYear y := by
  rw [jan1_eq, jan1_eq, daysBeforeYear_succ]; ring

theorem dec31_eq (y : Int) : mkDate y 12 31 = jan1 y + daysInYear y - 1 := by
  rw [jan1_eq]
  unfold mkDate daysBeforeMonth daysBeforeMonthTable daysInYear
  by_cases h : isLeap y = true <;> simp [h] <;> omega

theorem jan1_bounds (y : Int) :
    146097 * (y - 1) - 299 ≤ 400 * jan1 y ∧ 400 * jan1 y ≤ 146097 * (y - 1) + 796 := by
  rw [jan1_eq]
  unfold daysBeforeYear
  rw [fdiv_four, fdiv_hundred, fdiv_fourhundred]
  omega

theorem jan1_succ_ge (y : Int) : jan1 y + 365 ≤ jan1 (y + 1) := by
  rw [jan1_succ]
  have := daysInYear_bounds y
  omega

theorem yearOf_spec (z : Int) : jan1 (yearOf z) ≤ z ∧ z < jan1 (yearOf z + 1) := by
  have hdiv : 146097 * ((400 * z).fdiv 146097) ≤ 400 * z ∧
      400 * z < 146097 * ((400 * z).fdiv 146097) + 146097 := by
    rw [fdiv_cycle]; omega
  have hA : jan1 ((400 * z).fdiv 146097 - 1) ≤ z := by
    have hb := jan1_bounds ((400 * z).fdiv 146097 - 1)
    omega
  have hB : z < jan1 ((400 * z).fdiv 146097 + 4) := by
    have hb := jan1_bounds ((400 * z).fdiv 146097 + 4)
    omega
  simp only [yearOf]
  split_ifs with h1 h2 h3 h4
  · refine ⟨h1, ?_⟩
    have e : (400 * z).fdiv 146097 + 1 + 2 + 1 = (400 * z).fdiv 146097 + 4 := by ring
    rw [e]; exact hB
  · refine ⟨h2, ?_⟩
    have e : (400 * z).fdiv 146097 + 1 + 1 + 1 = (400 * z).fdiv 146097 + 1 + 2 := by ring
    rw [e]; exact lt_of_not_le h1
  · exact ⟨h3, lt_of_not_le h2⟩
  · refine ⟨h4, ?_⟩
    have e : (400 * z).fdiv 146097 + 1 - 1 + 1 = (400 * z).fdiv 146097 + 1 := by ring
    rw [e]; exact lt_of_not_le h3
  · refine ⟨?_, ?_⟩
    · have e : (400 * z).fdiv 146097 + 1 - 2 = (400 * z).fdiv 146097 - 1 := by ring
      rw [e]; exact hA
    · have e : (400 * z).fdiv 146097 + 1 - 2 + 1 = (400 * z).fdiv 146097 + 1 - 1 := by ring
      rw [e]; exact lt_of_not_le h4

end DiasUteis

namespace DiasUteis

theorem jan1_mono {y w : Int} (h : y ≤ w) : jan1 y ≤ jan1 w := by
  have key : ∀ n : Nat, ∀ v : Int, jan1 v ≤ jan1 (v + n) := by
    intro n
    induction n with
    | zero => intro v; simp
    | succ k ih =>
      intro v
      have h1 := ih v
      have h2 := jan1_succ_ge (v + k)
      have e : v + (k : Int) + 1 = v + ((k : Nat) + 1 : Nat) := by push_cast; ring
      rw [e] at h2
      omega
  have hn : ∃ n : Nat, w = y + n := ⟨(w - y).toNat, by omega⟩
  obtain ⟨n, rfl⟩ := hn
  exact key n y

theorem yearOf_eq_of_between {y z : Int} (h1 : jan1 y ≤ z) (h2 : z < jan1 (y + 1)) :
    yearOf z = y := by
  have hs := yearOf_spec z
  by_contra hne
  rcases lt_or_gt_of_ne hne with hlt | hgt
  · have : jan1 (yearOf z + 1) ≤ jan1 y := jan1_mono (by omega)
    omega
  · have : jan1 (y + 1) ≤ jan1 (yearOf z) := jan1_mono (by omega)
    omega

theorem yearOf_jan1 (y : Int) : yearOf (jan1 y) = y :=
  yearOf_eq_of_between le_rfl (by have := jan1_succ_ge y; omega)

theorem yearOf_dec31 (y : Int) : yearOf (mkDate y 12 31) = y := by
  have h := dec31_eq y
  have h2 := jan1_succ y
  have h3 := daysInYear_bounds y
  exact yearOf_eq_of_between (by omega) (by omega)

theorem yearOf_mono {a b : Int} (h : a ≤ b) : yearOf a ≤ yearOf b := by
  have ha := yearOf_spec a
  have hb := yearOf_spec b
  by_contra hc
  have : jan1 (yearOf b + 1) ≤ jan1 (yearOf a) := jan1_mono (by omega)
  omega

theorem weekday_lt_iff (d : Int) : weekday d < 5 ↔ ¬ weekday d = 5 ∧ ¬ weekday d = 6 := by
  unfold weekday
  rw [fmod_seven]
  omega

theorem mem_yearDates {y d : Int} : d ∈ yearDates y ↔ jan1 y ≤ d ∧ d < jan1 (y + 1) := by
  rw [jan1_succ]
  unfold yearDates
  simp only [List.mem_map, List.mem_range]
  constructor
  · rintro ⟨i, hi, rfl⟩
    omega
  · rintro ⟨h1, h2⟩
    exact ⟨(d - jan1 y).toNat, by omega, by omega⟩

theorem yearDates_pairwise (y : Int) : (yearDates y).Pairwise (· < ·) := by
  unfold yearDates
  rw [List.pairwise_map]
  exact (List.pairwise_lt_range _).imp (fun h => by omega)

end DiasUteis
namespace DiasUteis

theorem contains_iff_mem {l : List Int} {x : Int} : l.contains x = true ↔ x ∈ l := by
  simp [List.contains]

theorem mem_gybd_iff {y : Int} {hs : List Holiday} {d : Int} :
    d ∈ get_year_business_days y hs ↔
      (jan1 y ≤ d ∧ d < jan1 (y + 1)) ∧ weekday d < 5 ∧
        d ∉ (if hs.isEmpty then ([] : List Int) else get_year_holidays y hs) := by
  unfold get_year_business_days
  rw [List.mem_filter, mem_yearDates]
  simp [contains_iff_mem]

theorem gybd_pairwise (y : Int) (hs : List Holiday) :
    (get_year_business_days y hs).Pairwise (· < ·) :=
  (yearDates_pairwise y).filter _

theorem yearOf_of_mem_gybd {y : Int} {hs : List Holiday} {d : Int}
    (h : d ∈ get_year_business_days y hs) : yearOf d = y := by
  have := (mem_gybd_iff.mp h).1
  exact yearOf_eq_of_between this.1 this.2

theorem get_all_eq_flatten (years : List Int) (hs : List Holiday) :
    get_all_bdays_for_years years hs =
      (years.map (fun y => get_year_business_days y hs)).flatten := by
  unfold get_all_bdays_for_years
  have key : ∀ (l : List Int) (init : List Int),
      l.foldl (fun acc y => acc ++ get_year_business_days y hs) init =
        init ++ (l.map (fun y => get_year_business_days y hs)).flatten := by
    intro l
    induction l with
    | nil => intro init; simp
    | cons a t ih => intro init; simp [ih, List.append_assoc]
  simpa using key years []

theorem mem_get_all_iff {years : List Int} {hs : List Holiday} {d : Int} :
    d ∈ get_all_bdays_for_years years hs ↔ yearOf d ∈ years ∧ is_bd hs d = true := by
  rw [get_all_eq_flatten]
  simp only [List.mem_flatten, List.mem_map]
  constructor
  · rintro ⟨l, ⟨y, hy, rfl⟩, hd⟩
    have hyd := yearOf_of_mem_gybd hd
    refine ⟨hyd ▸ hy, ?_⟩
    unfold is_bd
    rw [contains_iff_mem, hyd]
    exact hd
  · rintro ⟨hy, hbd⟩
    unfold is_bd at hbd
    rw [contains_iff_mem] at hbd
    exact ⟨_, ⟨yearOf d, hy, rfl⟩, hbd⟩

theorem get_all_pairwise {years : List Int} (hs : List Holiday)
    (hy : years.Pairwise (· < ·)) :
    (get_all_bdays_for_years years hs).Pairwise (· < ·) := by
  rw [get_all_eq_flatten]
  rw [List.pairwise_flatten]
  refine ⟨?_, ?_⟩
  · rintro l hl
    simp only [List.mem_map] at hl
    obtain ⟨y, _, rfl⟩ := hl
    exact gybd_pairwise y hs
  · rw [List.pairwise_map]
    refine hy.imp_of_mem ?_
    intro a b _ _ hab
    intro x hx z hz
    have hxa := (mem_gybd_iff.mp hx).1
    have hzb := (mem_gybd_iff.mp hz).1
    have : jan1 (a + 1) ≤ jan1 b := jan1_mono (by omega)
    omega

theorem mem_intRange {a b x : Int} : x ∈ intRange a b ↔ a ≤ x ∧ x ≤ b := by
  unfold intRange
  simp only [List.mem_map, List.mem_range]
  constructor
  · rintro ⟨i, hi, rfl⟩
    omega
  · rintro ⟨h1, h2⟩
    exact ⟨(x - a).toNat, by omega, by omega⟩

theorem intRange_pairwise (a b : Int) : (intRange a b).Pairwise (· < ·) := by
  unfold intRange
  rw [List.pairwise_map]
  exact (List.pairwise_lt_range _).imp (fun h => by omega)

theorem intRange_self (a : Int) : intRange a a = [a] := by
  unfold intRange
  have h : (a + 1 - a).toNat = 1 := by omega
  rw [h]
  simp [List.range_succ]

end DiasUteis
namespace DiasUteis

theorem years_between_same_year (y : Int) :
    get_years_between_two_dates (mkDate y 1 1) (mkDate y 12 31) = [y] := by
  unfold get_years_between_two_dates
  have hj : jan1 y = mkDate y 1 1 := rfl
  have hgt : mkDate y 12 31 > mkDate y 1 1 := by
    have h31 := dec31_eq y
    have hb := daysInYear_bounds y
    show mkDate y 1 1 < mkDate y 12 31
    omega
  rw [if_pos hgt]
  have h1 : yearOf (mkDate y 1 1) = y := yearOf_jan1 y
  have h2 : yearOf (mkDate y 12 31) = y := yearOf_dec31 y
  rw [h1, h2, intRange_self]

theorem get_all_singleton (y : Int) (hs : List Holiday) :
    get_all_bdays_for_years [y] hs = get_year_business_days y hs := by
  unfold get_all_bdays_for_years
  simp

theorem year_bds_eq (hs : List Holiday) (y : Int) :
    year_bds hs y = get_year_business_days y hs := by
  have h : year_bds hs y = (get_all_bdays_for_years
      (get_years_between_two_dates (mkDate y 1 1) (mkDate y 12 31)) hs).filter
      (fun bday => decide (mkDate y 1 1 ≤ bday) && decide (bday ≤ mkDate y 12 31)) := rfl
  rw [h, years_between_same_year, get_all_singleton, List.filter_eq_self]
  intro d hd
  have hb := (mem_gybd_iff.mp hd).1
  have h31 := dec31_eq y
  have hsucc := jan1_succ y
  have hj : jan1 y = mkDate y 1 1 := rfl
  simp only [Bool.and_eq_true, decide_eq_true_eq]
  omega

theorem filter_eq_singleton_of_pairwise {l : List Int} (hl : l.Pairwise (· < ·))
    {a : Int} (ha : a ∈ l) :
    l.filter (fun d => decide (a ≤ d) && decide (d ≤ a)) = [a] := by
  induction l with
  | nil => cases ha
  | cons x t ih =>
    obtain ⟨hx, ht⟩ := List.pairwise_cons.mp hl
    rw [List.filter_cons]
    rcases List.mem_cons.mp ha with rfl | hat
    · rw [if_pos (by simp)]
      have hnil : t.filter (fun d => decide (a ≤ d) && decide (d ≤ a)) = [] := by
        rw [List.filter_eq_nil_iff]
        intro d hd
        have := hx d hd
        simp only [Bool.and_eq_true, decide_eq_true_eq, not_and]
        omega
      rw [hnil]
    · have hxa := hx a hat
      have hneg : ¬((decide (a ≤ x) && decide (x ≤ a)) = true) := by
        simp only [Bool.and_eq_true, decide_eq_true_eq, not_and]
        omega
      rw [if_neg hneg]
      exact ih ht hat

end DiasUteis
namespace DiasUteis

/-- C3: For every year `Y` (and any holiday-rule list, in particular the
default Brazilian one), the sequence returned by `year_bds` is strictly
ascending, contains no Saturday (`weekday = 5`) or Sunday (`weekday = 6`),
and contains none of the dates returned by `year_holidays Y` for the same
rule list. -/
theorem year_bds_sorted_no_weekend_no_holiday (hs : List Holiday) (y : Int) :
    (year_bds hs y).Pairwise (· < ·) ∧
      ∀ d ∈ year_bds hs y, weekday d ≠ 5 ∧ weekday d ≠ 6 ∧ d ∉ year_holidays hs y := by
  rw [year_bds_eq]
  refine ⟨gybd_pairwise y hs, ?_⟩
  intro d hd
  obtain ⟨_, hw, hhol⟩ := mem_gybd_iff.mp hd
  have hw2 := (weekday_lt_iff d).mp hw
  refine ⟨hw2.1, hw2.2, ?_⟩
  unfold year_holidays
  by_cases he : hs.isEmpty
  · simp [he]
  · simp only [he, if_neg] at hhol
    simpa [he] using hhol

/-- C10: whenever `end_date` is strictly before `start_date`, `range_bd`
returns the empty list, for either value of `include_end`. -/
theorem range_bd_reversed_empty (hs : List Holiday) (s e : Int) (inc : Bool)
    (h : e < s) : range_bd hs s e inc = [] := by
  cases inc
  · rw [show range_bd hs s e false = (get_all_bdays_for_years
        (get_years_between_two_dates s e) hs).filter
        (fun bday => decide (s ≤ bday) && decide (bday < e)) from rfl]
    rw [List.filter_eq_nil_iff]
    intro d _
    simp only [Bool.and_eq_true, decide_eq_true_eq, not_and]
    intro h1
    omega
  · rw [show range_bd hs s e true = (get_all_bdays_for_years
        (get_years_between_two_dates s e) hs).filter
        (fun bday => decide (s ≤ bday) && decide (bday ≤ e)) from rfl]
    rw [List.filter_eq_nil_iff]
    intro d _
    simp only [Bool.and_eq_true, decide_eq_true_eq, not_and]
    intro h1
    omega

/-- C10 witness: a concrete reversed range is empty. -/
theorem range_bd_reversed_empty_witness :
    mkDate 2023 11 30 < mkDate 2023 12 10 ∧
      range_bd FERIADOS_NACIONAIS_BR (mkDate 2023 12 10) (mkDate 2023 11 30) false = [] :=
  ⟨by decide, range_bd_reversed_empty FERIADOS_NACIONAIS_BR _ _ false (by decide)⟩

/-- C4 counterexample: the inclusive `diff` is not antisymmetric on the
pair (2023-01-01, 2023-01-01): 2023-01-01 is not a business day (Sunday and
New Year), and `diff` at equal non-business-day arguments returns 1, not 0. -/
theorem diff_not_antisym_at_nonbusiness_day :
    diff FERIADOS_NACIONAIS_BR (mkDate 2023 1 1) (mkDate 2023 1 1) ≠
      - diff FERIADOS_NACIONAIS_BR (mkDate 2023 1 1) (mkDate 2023 1 1) := by decide

/-- C4 (amended): antisymmetry `diff a b = -diff b a` holds except at equal
non-business-day arguments: it holds whenever `a ≠ b`, and also at `a = b`
when `a` is a business day (where `diff a a = 0`). -/
theorem diff_antisym_off_diagonal (hs : List Holiday) (a b : Int)
    (h : a ≠ b ∨ is_bd hs a = true) : diff hs a b = - diff hs b a := by
  have hsym : (get_all_bdays_for_years
        (intRange (min (yearOf b) (yearOf a)) (max (yearOf b) (yearOf a))) hs).filter
        (fun d => decide (min b a ≤ d) && decide (d ≤ max b a)) =
      (get_all_bdays_for_years
        (intRange (min (yearOf a) (yearOf b)) (max (yearOf a) (yearOf b))) hs).filter
        (fun d => decide (min a b ≤ d) && decide (d ≤ max a b)) := by
    rw [min_comm (yearOf b), max_comm (yearOf b), min_comm b, max_comm b]
  simp only [diff]
  rw [hsym]
  rcases lt_trichotomy a b with hab | hab | hab
  · rw [if_pos hab, if_neg (by omega : ¬ b < a)]
    ring
  · subst hab
    rcases h with hne | hbd
    · exact absurd rfl hne
    · rw [if_neg (lt_irrefl a)]
      have hfil : (get_all_bdays_for_years
          (intRange (min (yearOf a) (yearOf a)) (max (yearOf a) (yearOf a))) hs).filter
          (fun d => decide (min a a ≤ d) && decide (d ≤ max a a)) = [a] := by
        rw [min_self, max_self, min_self, max_self, intRange_self]
        refine filter_eq_singleton_of_pairwise ?_ ?_
        · exact get_all_pairwise hs (by simp)
        · rw [get_all_singleton]
          unfold is_bd at hbd
          exact contains_iff_mem.mp hbd
      rw [hfil]
      norm_num
  · rw [if_neg (by omega : ¬ a < b), if_pos hab]
    ring

/-- C4 witness: antisymmetry via the amended theorem at the distinct pair
(2023-01-02, 2023-01-03). -/
theorem diff_antisym_off_diagonal_witness :
    mkDate 2023 1 2 ≠ mkDate 2023 1 3 ∧
      diff FERIADOS_NACIONAIS_BR (mkDate 2023 1 2) (mkDate 2023 1 3) =
        - diff FERIADOS_NACIONAIS_BR (mkDate 2023 1 3) (mkDate 2023 1 2) :=
  ⟨by decide, diff_antisym_off_diagonal FERIADOS_NACIONAIS_BR _ _ (Or.inl (by decide))⟩

end DiasUteis
namespace DiasUteis

theorem filter_le_split {l : List Int} (hl : l.Pairwise (· < ·)) (s e : Int) :
    l.filter (fun d => decide (s ≤ d) && decide (d ≤ e)) =
      l.filter (fun d => decide (s ≤ d) && decide (d < e)) ++
        (if e ∈ l ∧ s ≤ e then [e] else []) := by
  induction l with
  | nil => simp
  | cons x t ih =>
    obtain ⟨hx, ht⟩ := List.pairwise_cons.mp hl
    rw [List.filter_cons, List.filter_cons]
    by_cases hxe : x = e
    · subst hxe
      have ht_le : t.filter (fun d => decide (s ≤ d) && decide (d ≤ x)) = [] := by
        rw [List.filter_eq_nil_iff]
        intro d hd
        have := hx d hd
        simp only [Bool.and_eq_true, decide_eq_true_eq, not_and]
        omega
      have ht_lt : t.filter (fun d => decide (s ≤ d) && decide (d < x)) = [] := by
        rw [List.filter_eq_nil_iff]
        intro d hd
        have := hx d hd
        simp only [Bool.and_eq_true, decide_eq_true_eq, not_and]
        omega
      by_cases hsx : s ≤ x
      · rw [if_pos (by simp [hsx]), if_neg (by simp), ht_le, ht_lt,
          if_pos ⟨List.mem_cons_self x t, hsx⟩]
        simp
      · rw [if_neg (by simp [hsx]), if_neg (by simp [hsx]), ht_le, ht_lt,
          if_neg (by rintro ⟨_, hc⟩; exact hsx hc)]
        simp
    · have hmemiff : (e ∈ x :: t ∧ s ≤ e) ↔ (e ∈ t ∧ s ≤ e) := by
        rw [List.mem_cons]
        constructor
        · rintro ⟨he | he, hc⟩
          · exact absurd he.symm hxe
          · exact ⟨he, hc⟩
        · rintro ⟨he, hc⟩
          exact ⟨Or.inr he, hc⟩
      have hifeq : (if e ∈ x :: t ∧ s ≤ e then [e] else ([] : List Int)) =
          (if e ∈ t ∧ s ≤ e then [e] else []) := by
        by_cases hc : e ∈ t ∧ s ≤ e
        · rw [if_pos (hmemiff.mpr hc), if_pos hc]
        · rw [if_neg (fun hcc => hc (hmemiff.mp hcc)), if_neg hc]
      rw [hifeq]
      by_cases hpx : (decide (s ≤ x) && decide (x < e)) = true
      · have hpx2 : (decide (s ≤ x) && decide (x ≤ e)) = true := by
          simp only [Bool.and_eq_true, decide_eq_true_eq] at hpx ⊢
          omega
        rw [if_pos hpx2, if_pos hpx, ih ht, List.cons_append]
      · have hpx2 : ¬ ((decide (s ≤ x) && decide (x ≤ e)) = true) := by
          simp only [Bool.and_eq_true, decide_eq_true_eq] at hpx ⊢
          intro hc
          exact hpx ⟨hc.1, by omega⟩
        rw [if_neg hpx2, if_neg hpx, ih ht]

/-- C7: for `start ≤ end`, `range_bd` with `include_end = false` is a
prefix of `range_bd` with `include_end = true`; the two agree when `end` is
not a business day, the `true` variant is the `false` variant with `end`
appended when `end` is a business day, and both results are in ascending
date order. -/
theorem range_bd_include_end_relation (hs : List Holiday) (s e : Int) (hse : s ≤ e) :
    range_bd hs s e false <+: range_bd hs s e true ∧
      (is_bd hs e = false → range_bd hs s e true = range_bd hs s e false) ∧
      (is_bd hs e = true → range_bd hs s e true = range_bd hs s e false ++ [e]) ∧
      (range_bd hs s e false).Pairwise (· < ·) ∧
      (range_bd hs s e true).Pairwise (· < ·) := by
  have hfe : range_bd hs s e false = (get_all_bdays_for_years
      (get_years_between_two_dates s e) hs).filter
      (fun bday => decide (s ≤ bday) && decide (bday < e)) := rfl
  have hte : range_bd hs s e true = (get_all_bdays_for_years
      (get_years_between_two_dates s e) hs).filter
      (fun bday => decide (s ≤ bday) && decide (bday ≤ e)) := rfl
  have hyears : (get_years_between_two_dates s e).Pairwise (· < ·) := by
    unfold get_years_between_two_dates
    split_ifs <;> exact intRange_pairwise _ _
  have hLp : (get_all_bdays_for_years (get_years_between_two_dates s e) hs).Pairwise
      (· < ·) := get_all_pairwise hs hyears
  have hsplit := filter_le_split hLp s e
  have hye : yearOf e ∈ get_years_between_two_dates s e := by
    unfold get_years_between_two_dates
    split_ifs with hgt
    · exact mem_intRange.mpr ⟨yearOf_mono hse, le_rfl⟩
    · have hes : s = e := by omega
      subst hes
      exact mem_intRange.mpr ⟨le_rfl, le_rfl⟩
  have hmem : e ∈ get_all_bdays_for_years (get_years_between_two_dates s e) hs ↔
      is_bd hs e = true := by
    rw [mem_get_all_iff]
    exact ⟨And.right, fun hb => ⟨hye, hb⟩⟩
  refine ⟨?_, ?_, ?_, ?_, ?_⟩
  · rw [hfe, hte, hsplit]
    exact List.prefix_append _ _
  · intro hnb
    rw [hfe, hte, hsplit, if_neg]
    · simp
    · rintro ⟨hmem2, _⟩
      rw [hmem] at hmem2
      rw [hmem2] at hnb
      cases hnb
  · intro hb
    rw [hfe, hte, hsplit, if_pos ⟨hmem.mpr hb, hse⟩]
  · rw [hfe]
    exact hLp.filter _
  · rw [hte]
    exact hLp.filter _

/-- C7 witness: the relation at the concrete range 2023-11-01 .. 2023-11-30. -/
theorem range_bd_include_end_relation_witness :
    mkDate 2023 11 1 ≤ mkDate 2023 11 30 ∧
      (range_bd FERIADOS_NACIONAIS_BR (mkDate 2023 11 1) (mkDate 2023 11 30) false <+:
        range_bd FERIADOS_NACIONAIS_BR (mkDate 2023 11 1) (mkDate 2023 11 30) true) :=
  ⟨by decide, (range_bd_include_end_relation FERIADOS_NACIONAIS_BR _ _ (by decide)).1⟩

end DiasUteis
namespace DiasUteis

/-- C6 counterexample: the claim lists "exactly one of month/day supplied"
among the construction-failure cases, but constructing a Holiday with only
`month` supplied together with a function succeeds (as a dynamic rule) —
exactly as the source docstring announces. -/
theorem mkHoliday_one_of_pair_with_func_succeeds :
    mkHoliday 2026 (some 5) none (some fun y => y) =
      .ok ⟨some 5, none, some fun y => y, .dynamic⟩ := rfl

/-- C6 (amended): Holiday construction fails exactly when (a) month and day
are both supplied but do not form a valid date in the validation year, or
(b) month and day are not both supplied and no function is supplied.  In
particular, supplying exactly one of month/day together with a function
succeeds; the `callable(func)` and `isinstance` type checks are type-level
in this embedding and cannot fail. -/
theorem mkHoliday_error_iff (ty : Int) (month day : Option Int)
    (func : Option (Int → Int)) :
    (mkHoliday ty month day func).isOk = false ↔
      ((month.isSome && day.isSome) = true ∧
          validDate ty (month.getD 0) (day.getD 0) = false) ∨
        ((month.isSome && day.isSome) = false ∧ func = none) := by
  unfold mkHoliday pyDate
  by_cases hmd : (month.isSome && day.isSome) = true
  · by_cases hv : validDate ty (month.getD 0) (day.getD 0) = true
    · simp [hmd, hv, Except.isOk, Except.toBool]
    · rw [Bool.not_eq_true] at hv
      simp [hmd, hv, Except.isOk, Except.toBool]
  · rw [Bool.not_eq_true] at hmd
    cases func with
    | none => simp [hmd, Except.isOk, Except.toBool]
    | some f => simp [hmd, Except.isOk, Except.toBool]

/-- C9: constructing a Holiday with month, day and func all supplied
succeeds (with the supplied month/day validating as a date), the stored
rule is `fixed`, `calc_for_year` returns `date(year, month, day)` for every
valid year, and `func` is never invoked: the result of `calc_for_year` does
not depend on the stored function, at any year whatsoever. -/
theorem mkHoliday_all_supplied_fixed (ty m d : Int) (f : Int → Int) (y : Int)
    (hv : validDate ty m d = true) (hy : validYear y = true) :
    mkHoliday ty (some m) (some d) (some f) =
        .ok ⟨some m, some d, some f, .fixed⟩ ∧
      Holiday.calc_for_year ⟨some m, some d, some f, .fixed⟩ y = pyDate y m d ∧
      ∀ (g : Int → Int) (y2 : Int),
        Holiday.calc_for_year ⟨some m, some d, some g, .fixed⟩ y2 =
          Holiday.calc_for_year ⟨some m, some d, some f, .fixed⟩ y2 := by
  refine ⟨?_, ?_, ?_⟩
  · unfold mkHoliday pyDate
    simp [hv]
  · have h11 : validDate y 1 1 = true := by
      unfold validDate
      rw [hy]
      rfl
    unfold Holiday.calc_for_year
    rw [show pyDate y 1 1 = .ok (mkDate y 1 1) from by unfold pyDate; rw [if_pos h11]]
    rfl
  · intro g y2
    rfl

/-- C9 witness: the fixed Tiradentes rule (April 21) for 2023. -/
theorem mkHoliday_all_supplied_fixed_witness :
    validDate 2026 4 21 = true ∧ validYear 2023 = true ∧
      Holiday.calc_for_year ⟨some 4, some 21, some fun y => y, .fixed⟩ 2023 =
        pyDate 2023 4 21 :=
  ⟨by decide, by decide,
    (mkHoliday_all_supplied_fixed 2026 4 21 (fun y => y) 2023
      (by decide) (by decide)).2.1⟩

/-- C1: falsified on `dias_uteis/business_days.py`.  Its one-sided
`2·delta` window is too narrow for `delta_bd(2022-01-03, -1)`: 2022-01-03
is the first business day of the materialized window, so the computed index
is 0 + (-1) = -1 — outside the bounds the claim asserts.  The Python negative
indexing then silently returns the LAST window element, 2022-12-30: a date
almost a year AFTER the anchor instead of the business day one before it
(2021-12-31, which is a business day before the anchor). -/
theorem delta_bd_pkg_window_bug :
    delta_bd_pkg FERIADOS_NACIONAIS_BR (mkDate 2022 1 3) (-1) =
        .ok (mkDate 2022 12 30) ∧
      is_bd FERIADOS_NACIONAIS_BR (mkDate 2022 1 3) = true ∧
      mkDate 2022 1 3 < mkDate 2022 12 30 ∧
      is_bd FERIADOS_NACIONAIS_BR (mkDate 2021 12 31) = true ∧
      mkDate 2021 12 31 < mkDate 2022 1 3 :=
  ⟨rfl, by decide, by decide, by decide, by decide⟩

/-- C2: falsified on `dias_uteis/business_days.py`.  Round-tripping the
business day 2022-01-03 with n = -1 and then +1 lands on 2023-01-02, not
back on 2022-01-03, because the first call silently returns 2022-12-30
(negative-index wrap-around of the too-narrow window). -/
theorem delta_bd_pkg_roundtrip_bug :
    (delta_bd_pkg FERIADOS_NACIONAIS_BR (mkDate 2022 1 3) (-1)).bind
        (fun e => delta_bd_pkg FERIADOS_NACIONAIS_BR e 1) =
        .ok (mkDate 2023 1 2) ∧
      is_bd FERIADOS_NACIONAIS_BR (mkDate 2022 1 3) = true ∧
      ¬ mkDate 2023 1 2 = mkDate 2022 1 3 :=
  ⟨rfl, by decide, by decide⟩

/-- C5: falsified on `dias_uteis/business_days.py`, whose `next_bd` does
not walk backward (the `_find_bd` helper is commented out there): on the
non-business day 2023-01-01 it raises `ValueError` from the `delta_bd`
precondition check, while the claimed behavior — implemented by
`dias_uteis.py`, also embedded here — anchors on 2022-12-30 and returns
2023-01-02. -/
theorem next_bd_pkg_raises_on_non_business_day :
    next_bd_pkg FERIADOS_NACIONAIS_BR (mkDate 2023 1 1) = .error .valueError ∧
      is_bd FERIADOS_NACIONAIS_BR (mkDate 2023 1 1) = false ∧
      next_bd FERIADOS_NACIONAIS_BR 10 (mkDate 2023 1 1) = .ok (mkDate 2023 1 2) :=
  ⟨rfl, by decide, rfl⟩

/-- C8: under the default Brazilian calendar, `delta_bd` (dias_uteis.py)
moves 2023-12-15 forward 5 business days to 2023-12-22 and backward 10
business days to 2023-12-01. -/
theorem delta_bd_concrete_scenarios :
    delta_bd FERIADOS_NACIONAIS_BR (mkDate 2023 12 15) 5 =
        .ok (mkDate 2023 12 22) ∧
      delta_bd FERIADOS_NACIONAIS_BR (mkDate 2023 12 15) (-10) =
        .ok (mkDate 2023 12 1) :=
  ⟨rfl, rfl⟩

end DiasUteis
